import Mathlib

/-!
Verification development for the Marginalia PDF annotation plugin.

The definitions below are a shallow embedding of the annotation core:
the stroke data model and the drawing state machine of
src/DrawingCanvas.ts, and the sidecar persistence logic of
src/PDFAnnotationView.ts.  JavaScript numbers are modelled as rationals,
the canvas 2D context as an explicit record of its relevant settings,
and rendering as a log of drawing commands.  File contents are modelled
at the parsed JSON level, since JSON.stringify and JSON.parse are
inverse on the values this plugin writes.
-/

namespace Marginalia

/-- The drawing tools (the Tool union type of DrawingCanvas.ts). -/
inductive Tool where
  | pen
  | highlighter
  | eraser
  | hand
deriving DecidableEq

/-- One sampled input point (the Point interface of DrawingCanvas.ts). -/
structure Point where
  x : ℚ
  y : ℚ
  pressure : ℚ
  tiltX : ℚ
  tiltY : ℚ
  timestamp : ℚ
deriving DecidableEq

instance : Inhabited Point := ⟨⟨0, 0, 0, 0, 0, 0⟩⟩

/-- One stroke (the Stroke interface of DrawingCanvas.ts). -/
structure Stroke where
  points : List Point
  tool : Tool
  color : String
  lineWidth : ℚ
deriving DecidableEq

/-- The persisted unit (the AnnotationData interface).  JavaScript object keys
are strings, so the per page mapping is keyed by the decimal string of the
page number, in insertion order. -/
structure AnnotationData where
  version : String
  pdfPath : String
  pageAnnotations : List (String × List Stroke)
deriving DecidableEq

/-- Parsed JSON values. -/
inductive Json where
  | null
  | bool (b : Bool)
  | num (q : ℚ)
  | str (s : String)
  | arr (elems : List Json)
  | obj (fields : List (String × Json))

/-- Field lookup in a JSON object, mirroring JavaScript property access. -/
def getField : List (String × Json) → String → Option Json
  | [], _ => none
  | f :: rest, key => if f.1 = key then some f.2 else getField rest key

def asNum : Json → Option ℚ
  | Json.num q => some q
  | _ => none

def asStr : Json → Option String
  | Json.str s => some s
  | _ => none

def asArr : Json → Option (List Json)
  | Json.arr xs => some xs
  | _ => none

/-- Monadic map over Option, used by the decoders. -/
def mapMOpt (f : α → Option β) : List α → Option (List β)
  | [] => some []
  | a :: rest =>
    match f a, mapMOpt f rest with
    | some b, some bs => some (b :: bs)
    | _, _ => none

def toolToString : Tool → String
  | Tool.pen => "pen"
  | Tool.highlighter => "highlighter"
  | Tool.eraser => "eraser"
  | Tool.hand => "hand"

def toolFromString (s : String) : Option Tool :=
  if s = "pen" then some Tool.pen
  else if s = "highlighter" then some Tool.highlighter
  else if s = "eraser" then some Tool.eraser
  else if s = "hand" then some Tool.hand
  else none

def encodePoint (p : Point) : Json :=
  Json.obj [("x", Json.num p.x), ("y", Json.num p.y),
            ("pressure", Json.num p.pressure), ("tiltX", Json.num p.tiltX),
            ("tiltY", Json.num p.tiltY), ("timestamp", Json.num p.timestamp)]

def decodePoint (j : Json) : Option Point :=
  match j with
  | Json.obj fs =>
    match (getField fs "x").bind asNum, (getField fs "y").bind asNum,
          (getField fs "pressure").bind asNum, (getField fs "tiltX").bind asNum,
          (getField fs "tiltY").bind asNum, (getField fs "timestamp").bind asNum with
    | some x, some y, some pr, some tx, some ty, some ts =>
      some { x := x, y := y, pressure := pr, tiltX := tx, tiltY := ty, timestamp := ts }
    | _, _, _, _, _, _ => none
  | _ => none

def encodeStroke (s : Stroke) : Json :=
  Json.obj [("points", Json.arr (s.points.map encodePoint)),
            ("tool", Json.str (toolToString s.tool)),
            ("color", Json.str s.color),
            ("lineWidth", Json.num s.lineWidth)]

def decodeStroke (j : Json) : Option Stroke :=
  match j with
  | Json.obj fs =>
    match ((getField fs "points").bind asArr).bind (mapMOpt decodePoint),
          ((getField fs "tool").bind asStr).bind toolFromString,
          (getField fs "color").bind asStr,
          (getField fs "lineWidth").bind asNum with
    | some pts, some tool, some color, some w =>
      some { points := pts, tool := tool, color := color, lineWidth := w }
    | _, _, _, _ => none
  | _ => none

def encodeAnnotationData (d : AnnotationData) : Json :=
  Json.obj [("version", Json.str d.version),
            ("pdfPath", Json.str d.pdfPath),
            ("pageAnnotations",
             Json.obj (d.pageAnnotations.map
               (fun e => (e.1, Json.arr (e.2.map encodeStroke)))))]

def decodeStrokeList (j : Json) : Option (List Stroke) :=
  (asArr j).bind (mapMOpt decodeStroke)

/-- What loadAnnotations extracts from the parsed file:
data.pageAnnotations with a fallback to the empty object. -/
def decodePageMap (j : Json) : Option (List (String × List Stroke)) :=
  match j with
  | Json.obj fs =>
    match getField fs "pageAnnotations" with
    | none => some []
    | some Json.null => some []
    | some (Json.obj entries) =>
      mapMOpt (fun e => (decodeStrokeList e.2).map (fun l => (e.1, l))) entries
    | some _ => none
  | _ => none

/-- The vault file system, path to parsed JSON content. -/
abbrev Vault := List (String × Json)

def vaultGet : Vault → String → Option Json
  | [], _ => none
  | f :: rest, path => if f.1 = path then some f.2 else vaultGet rest path

def vaultDelete : Vault → String → Vault
  | [], _ => []
  | f :: rest, path =>
    if f.1 = path then vaultDelete rest path else f :: vaultDelete rest path

/-- vault.modify or vault.create: the sidecar path ends up holding the content. -/
def vaultWrite (v : Vault) (path : String) (content : Json) : Vault :=
  vaultDelete v path ++ [(path, content)]

/-- Sidecar naming convention of saveAnnotations and loadAnnotations. -/
def annotationPath (pdfPath : String) : String := pdfPath ++ ".annotations.json"

/-- saveAnnotations of PDFAnnotationView.ts, after the flush: when at least one
page has strokes, serialize and write the sidecar file; otherwise delete the
sidecar file when it exists. -/
def saveAnnotations (version pdfPath : String)
    (pageAnnotations : List (String × List Stroke)) (vault : Vault) : Vault :=
  if 0 < pageAnnotations.length then
    vaultWrite vault (annotationPath pdfPath)
      (encodeAnnotationData
        { version := version, pdfPath := pdfPath, pageAnnotations := pageAnnotations })
  else
    match vaultGet vault (annotationPath pdfPath) with
    | some _ => vaultDelete vault (annotationPath pdfPath)
    | none => vault

/-- loadAnnotations of PDFAnnotationView.ts: when the sidecar file exists and
parses, replace the in memory mapping with data.pageAnnotations (empty object
fallback); otherwise the catch branch leaves the prior mapping in place. -/
def loadAnnotations (pdfPath : String) (prior : List (String × List Stroke))
    (vault : Vault) : List (String × List Stroke) :=
  match vaultGet vault (annotationPath pdfPath) with
  | none => prior
  | some j =>
    match decodePageMap j with
    | some pa => pa
    | none => prior

/-- Lookup in the in memory per page mapping. -/
def paGet : List (String × List Stroke) → String → Option (List Stroke)
  | [], _ => none
  | f :: rest, key => if f.1 = key then some f.2 else paGet rest key

/-- JavaScript object property assignment: replace in place, or append. -/
def paSet : List (String × List Stroke) → String → List Stroke →
    List (String × List Stroke)
  | [], key, v => [(key, v)]
  | f :: rest, key, v => if f.1 = key then (key, v) :: rest else f :: paSet rest key v

/-- JavaScript delete of an object property. -/
def paDelete : List (String × List Stroke) → String → List (String × List Stroke)
  | [], _ => []
  | f :: rest, key =>
    if f.1 = key then paDelete rest key else f :: paDelete rest key

/-- The loop body of saveAllPageAnnotations for one mounted drawing canvas:
a canvas with strokes stores them under its page key, a canvas with no strokes
deletes an existing entry for its page. -/
def flushCanvas (pa : List (String × List Stroke)) (c : Nat × List Stroke) :
    List (String × List Stroke) :=
  if 0 < c.2.length then paSet pa (Nat.repr c.1) c.2
  else
    match paGet pa (Nat.repr c.1) with
    | some _ => paDelete pa (Nat.repr c.1)
    | none => pa

/-- saveAllPageAnnotations of PDFAnnotationView.ts: flush every mounted drawing
canvas into the per page mapping. -/
def saveAllPageAnnotations (canvases : List (Nat × List Stroke))
    (pa : List (String × List Stroke)) : List (String × List Stroke) :=
  canvases.foldl flushCanvas pa

/-! ## The drawing canvas state machine (DrawingCanvas.ts) -/

/-- Pointer input kinds of the PointerEvent API. -/
inductive PointerType where
  | pen
  | touch
  | mouse
deriving DecidableEq

/-- The fields of a pointer event sample that the canvas reads. -/
structure RawEvent where
  pointerType : PointerType
  clientX : ℚ
  clientY : ℚ
  pressure : ℚ
  tiltX : ℚ
  tiltY : ℚ
  timeStamp : ℚ
deriving DecidableEq

/-- Canvas geometry: physical pixel size and the bounding client rect. -/
structure Geom where
  canvasWidth : ℚ
  canvasHeight : ℚ
  rectLeft : ℚ
  rectTop : ℚ
  rectWidth : ℚ
  rectHeight : ℚ
deriving DecidableEq

/-- The relevant mutable settings of the 2D drawing context. -/
structure Ctx where
  strokeStyle : String
  fillStyle : String
  alpha : ℚ
  destOut : Bool
  lineWidth : ℚ
deriving DecidableEq

/-- Fresh 2D context settings (also restored when the canvas is resized). -/
def initCtx : Ctx :=
  { strokeStyle := "#000000", fillStyle := "#000000", alpha := 1,
    destOut := false, lineWidth := 1 }

/-- Abstraction of the rendering output: one entry per canvas paint call. -/
inductive DrawCmd where
  | dot (x y radius : ℚ) (color : String) (alpha : ℚ) (destOut : Bool)
  | line (x1 y1 x2 y2 width : ℚ) (color : String) (alpha : ℚ) (destOut : Bool)
  | quad (x0 y0 cx cy x1 y1 width : ℚ) (color : String) (alpha : ℚ) (destOut : Bool)
  | offLine (x1 y1 x2 y2 width : ℚ) (color : String)
  | composite
  | clearAll
  | fullRedraw (strokes : List Stroke)
deriving DecidableEq

/-- The state of one DrawingCanvas instance.  pendingRAFCount is a ghost
counter of scheduled but not yet fired animation frame callbacks. -/
structure CanvasState where
  isDrawing : Bool
  currentStroke : Option Stroke
  strokes : List Stroke
  currentTool : Tool
  currentColor : String
  highlightCanvasActive : Bool
  backgroundSnapshotActive : Bool
  highlightRAF : Bool
  needsHighlightUpdate : Bool
  longPressStartPos : Option (ℚ × ℚ)
  longPressTimeoutActive : Bool
  geom : Geom
  dpr : ℚ
  ctx : Ctx
  renderLog : List DrawCmd
  pendingRAFCount : Nat
deriving DecidableEq

def PEN_MIN_WIDTH : ℚ := 1
def PEN_MAX_WIDTH : ℚ := 4
def HIGHLIGHTER_WIDTH : ℚ := 20
def ERASER_WIDTH : ℚ := 30
def LONG_PRESS_THRESHOLD : ℚ := 10

/-- getLineWidth of DrawingCanvas.ts: pure in the current tool and pressure. -/
def getLineWidth (tool : Tool) (pressure : ℚ) : ℚ :=
  match tool with
  | Tool.pen => PEN_MIN_WIDTH + pressure * (PEN_MAX_WIDTH - PEN_MIN_WIDTH)
  | Tool.highlighter => HIGHLIGHTER_WIDTH
  | Tool.eraser => ERASER_WIDTH
  | Tool.hand => PEN_MIN_WIDTH

/-- getPointFromEvent: rect relative position scaled to canvas pixels; a falsy
(zero) pressure reading falls back to 0.5, likewise for the tilts. -/
def getPointFromEvent (g : Geom) (e : RawEvent) : Point :=
  let scaleX := g.canvasWidth / g.rectWidth
  let scaleY := g.canvasHeight / g.rectHeight
  { x := (e.clientX - g.rectLeft) * scaleX,
    y := (e.clientY - g.rectTop) * scaleY,
    pressure := if e.pressure = 0 then 1 / 2 else e.pressure,
    tiltX := if e.tiltX = 0 then 0 else e.tiltX,
    tiltY := if e.tiltY = 0 then 0 else e.tiltY,
    timestamp := e.timeStamp }

/-- setupContextForTool: updates the context settings from the current tool and
color; the hand tool leaves the context untouched. -/
def applySetup (tool : Tool) (color : String) (c : Ctx) : Ctx :=
  match tool with
  | Tool.pen =>
    { c with strokeStyle := color, fillStyle := color, alpha := 1, destOut := false }
  | Tool.highlighter =>
    { c with strokeStyle := color, fillStyle := color, alpha := 3 / 10, destOut := false }
  | Tool.eraser =>
    { c with strokeStyle := "rgba(0,0,0,1)", fillStyle := "rgba(0,0,0,1)",
             alpha := 1, destOut := true }
  | Tool.hand => c

def cancelLongPress (s : CanvasState) : CanvasState :=
  { s with longPressTimeoutActive := false, longPressStartPos := none }

/-- drawPoint: a filled dot of radius half the resolved line width. -/
def drawPoint (point : Point) (s : CanvasState) : CanvasState :=
  { s with renderLog := s.renderLog ++
      [DrawCmd.dot point.x point.y (getLineWidth s.currentTool point.pressure / 2)
        s.ctx.fillStyle s.ctx.alpha s.ctx.destOut] }

/-- handlePointerDown: hand tool passes through; touch input is rejected (palm
rejection); otherwise long press detection is armed, capture starts, the
highlighter snapshots the background and allocates its offscreen canvas, a one
point stroke is created, and every tool but the highlighter paints a dot. -/
def handlePointerDown (e : RawEvent) (s : CanvasState) : CanvasState :=
  if s.currentTool = Tool.hand then s
  else if e.pointerType = PointerType.touch then s
  else
    let s := { s with longPressStartPos := some (e.clientX, e.clientY),
                      longPressTimeoutActive := true, isDrawing := true }
    let s :=
      if s.currentTool = Tool.highlighter then
        { s with backgroundSnapshotActive := true, highlightCanvasActive := true }
      else s
    let point := getPointFromEvent s.geom e
    let stroke : Stroke :=
      { points := [point], tool := s.currentTool, color := s.currentColor,
        lineWidth := getLineWidth s.currentTool point.pressure }
    let s := { s with currentStroke := some stroke }
    let s := { s with ctx := applySetup s.currentTool s.currentColor s.ctx }
    if s.currentTool = Tool.highlighter then s else drawPoint point s

/-- drawSegment: renders the newest segment of the in progress stroke, as a
quadratic curve once three points exist, else a straight line. -/
def drawSegmentStep (s : CanvasState) : CanvasState :=
  match s.currentStroke with
  | none => s
  | some st =>
    if st.points.length < 2 then s
    else
      let point := st.points.getLastD default
      let prevPoint := st.points.getD (st.points.length - 2) default
      let s := { s with ctx :=
        { s.ctx with lineWidth := getLineWidth s.currentTool point.pressure } }
      let s := { s with ctx := applySetup s.currentTool s.currentColor s.ctx }
      if 3 ≤ st.points.length then
        let prevPrevPoint := st.points.getD (st.points.length - 3) default
        { s with renderLog := s.renderLog ++
          [DrawCmd.quad prevPrevPoint.x prevPrevPoint.y prevPoint.x prevPoint.y
            ((prevPoint.x + point.x) / 2) ((prevPoint.y + point.y) / 2)
            s.ctx.lineWidth s.ctx.strokeStyle s.ctx.alpha s.ctx.destOut] }
      else
        { s with renderLog := s.renderLog ++
          [DrawCmd.line prevPoint.x prevPoint.y point.x point.y
            s.ctx.lineWidth s.ctx.strokeStyle s.ctx.alpha s.ctx.destOut] }

/-- drawHighlighterSegment: paints the newest segment opaquely onto the
offscreen canvas, marks that a composite is needed, and schedules one frame
throttled composite callback unless one is already pending. -/
def drawHighlighterSegment (s : CanvasState) : CanvasState :=
  match s.currentStroke with
  | none => s
  | some st =>
    if s.highlightCanvasActive = false then s
    else if st.points.length < 2 then s
    else
      let point := st.points.getLastD default
      let prevPoint := st.points.getD (st.points.length - 2) default
      let s := { s with renderLog := s.renderLog ++
        [DrawCmd.offLine prevPoint.x prevPoint.y point.x point.y
          HIGHLIGHTER_WIDTH s.currentColor] }
      let s := { s with needsHighlightUpdate := true }
      if s.highlightRAF then s
      else { s with highlightRAF := true, pendingRAFCount := s.pendingRAFCount + 1 }

/-- The long press block at the top of handlePointerMove: cancels long press
detection once the pointer has moved past the threshold (the squared distance
comparison is equivalent to the Math.sqrt one in the source). -/
def longPressMoveCheck (main : RawEvent) (s : CanvasState) : CanvasState :=
  match s.longPressStartPos with
  | none => s
  | some pos =>
    if s.longPressTimeoutActive then
      if LONG_PRESS_THRESHOLD * LONG_PRESS_THRESHOLD <
          (main.clientX - pos.1) * (main.clientX - pos.1) +
          (main.clientY - pos.2) * (main.clientY - pos.2)
      then cancelLongPress s else s
    else s

/-- handlePointerMove: runs the long press check, is a no-op unless capturing,
and otherwise appends one point per coalesced sub-event (or the event itself
when coalescing is unsupported) and renders the newest segment. -/
def handlePointerMove (main : RawEvent) (coalesced : Option (List RawEvent))
    (s : CanvasState) : CanvasState :=
  let s := longPressMoveCheck main s
  if s.isDrawing = false then s
  else
    match s.currentStroke with
    | none => s
    | some st =>
      let events := coalesced.getD [main]
      let newPoints := events.map (getPointFromEvent s.geom)
      let s := { s with currentStroke := some { st with points := st.points ++ newPoints } }
      if s.currentTool = Tool.highlighter then drawHighlighterSegment s
      else drawSegmentStep s

/-- compositeHighlightCanvas: restore the snapshot, then draw the offscreen
canvas at 30 percent alpha (context saved and restored around it). -/
def compositeHighlightCanvas (s : CanvasState) : CanvasState :=
  if s.highlightCanvasActive && s.backgroundSnapshotActive then
    { s with renderLog := s.renderLog ++ [DrawCmd.composite] }
  else s

/-- handlePointerUp (also pointerleave and pointercancel): cancels long press
detection, and if capturing performs the final highlighter composite, cancels
any pending frame callback, commits the in progress stroke when it has at
least one point, and clears the capture state. -/
def handlePointerUp (s : CanvasState) : CanvasState :=
  let s := cancelLongPress s
  if s.isDrawing = false then s
  else
    let s := { s with isDrawing := false }
    let s := compositeHighlightCanvas s
    let s :=
      if s.highlightRAF then
        { s with highlightRAF := false, pendingRAFCount := s.pendingRAFCount - 1 }
      else s
    let s :=
      match s.currentStroke with
      | some st => if 0 < st.points.length then { s with strokes := s.strokes ++ [st] } else s
      | none => s
    { s with currentStroke := none, highlightCanvasActive := false,
             backgroundSnapshotActive := false, needsHighlightUpdate := false }

/-- The body of the frame throttled composite callback scheduled in
drawHighlighterSegment; a no-op when no callback is pending. -/
def rafFire (s : CanvasState) : CanvasState :=
  if s.highlightRAF = false then s
  else
    let s :=
      if s.needsHighlightUpdate then
        let s := compositeHighlightCanvas s
        { s with needsHighlightUpdate := false }
      else s
    { s with highlightRAF := false, pendingRAFCount := s.pendingRAFCount - 1 }

/-- The long press timeout callback: when the press position is still armed it
opens the radial menu and cancels the in progress drawing. -/
def longPressFire (s : CanvasState) : CanvasState :=
  if s.longPressTimeoutActive = false then s
  else
    let s := { s with longPressTimeoutActive := false }
    match s.longPressStartPos with
    | some _ => { s with isDrawing := false, currentStroke := none, longPressStartPos := none }
    | none => s

def setTool (t : Tool) (s : CanvasState) : CanvasState := { s with currentTool := t }

def setColor (c : String) (s : CanvasState) : CanvasState := { s with currentColor := c }

def clear (s : CanvasState) : CanvasState :=
  { s with strokes := [], renderLog := s.renderLog ++ [DrawCmd.clearAll] }

/-- The context line width left behind by redrawAllStrokes: each stroke with at
least two points sets it from its own tool and its last point pressure. -/
def redrawStrokeWidth (st : Stroke) (w : ℚ) : ℚ :=
  if st.points.length < 2 then w
  else getLineWidth st.tool (st.points.getLastD default).pressure

def redrawWidth (strokes : List Stroke) (w : ℚ) : ℚ :=
  strokes.foldl (fun w st => redrawStrokeWidth st w) w

/-- redrawAllStrokes: clear the surface and replay every committed stroke; the
temporarily overwritten tool and color are restored and the context is reset
for the current tool at the end. -/
def redrawAllStrokes (s : CanvasState) : CanvasState :=
  { s with renderLog := s.renderLog ++ [DrawCmd.clearAll, DrawCmd.fullRedraw s.strokes],
           ctx := applySetup s.currentTool s.currentColor
             { s.ctx with lineWidth := redrawWidth s.strokes s.ctx.lineWidth } }

/-- resize: updates the canvas pixel size (which resets the 2D context to its
defaults), then redraws every committed stroke.  The committed stroke list is
not touched. -/
def resize (w h : ℚ) (s : CanvasState) : CanvasState :=
  redrawAllStrokes
    { s with geom := { s.geom with canvasWidth := w, canvasHeight := h }, ctx := initCtx }

def getStrokes (s : CanvasState) : List Stroke := s.strokes

def loadStrokes (l : List Stroke) (s : CanvasState) : CanvasState :=
  redrawAllStrokes { s with strokes := l }

/-- Everything that can happen to one canvas instance on the event loop. -/
inductive Event where
  | down (e : RawEvent)
  | move (main : RawEvent) (coalesced : Option (List RawEvent))
  | up (e : RawEvent)
  | rafFire
  | longPressFire
  | setTool (t : Tool)
  | setColor (c : String)
  | clear
  | resize (w h : ℚ)
  | loadStrokes (l : List Stroke)
deriving DecidableEq

def step (ev : Event) (s : CanvasState) : CanvasState :=
  match ev with
  | Event.down e => handlePointerDown e s
  | Event.move main coalesced => handlePointerMove main coalesced s
  | Event.up _ => handlePointerUp s
  | Event.rafFire => rafFire s
  | Event.longPressFire => longPressFire s
  | Event.setTool t => setTool t s
  | Event.setColor c => setColor c s
  | Event.clear => clear s
  | Event.resize w h => resize w h s
  | Event.loadStrokes l => loadStrokes l s

def runEvents (events : List Event) (s : CanvasState) : CanvasState :=
  events.foldl (fun t e => step e t) s

/-- The state right after the DrawingCanvas constructor: physical size is the
display size times the device pixel ratio (floored), pen tool, black color,
nothing captured, nothing scheduled. -/
def initState (width height : Nat) (dpr rectLeft rectTop : ℚ) : CanvasState :=
  { isDrawing := false, currentStroke := none, strokes := [],
    currentTool := Tool.pen, currentColor := "#000000",
    highlightCanvasActive := false, backgroundSnapshotActive := false,
    highlightRAF := false, needsHighlightUpdate := false,
    longPressStartPos := none, longPressTimeoutActive := false,
    geom := { canvasWidth := (⌊(width : ℚ) * dpr⌋ : ℤ), canvasHeight := (⌊(height : ℚ) * dpr⌋ : ℤ),
              rectLeft := rectLeft, rectTop := rectTop,
              rectWidth := width, rectHeight := height },
    dpr := dpr, ctx := initCtx, renderLog := [], pendingRAFCount := 0 }

/-- The color setting a draw command was issued with. -/
def cmdColor : DrawCmd → String
  | DrawCmd.dot _ _ _ c _ _ => c
  | DrawCmd.line _ _ _ _ _ c _ _ => c
  | DrawCmd.quad _ _ _ _ _ _ _ c _ _ => c
  | DrawCmd.offLine _ _ _ _ _ c => c
  | DrawCmd.composite => ""
  | DrawCmd.clearAll => ""
  | DrawCmd.fullRedraw _ => ""

/-- Every stroke of the list has at least one point. -/
def StrokeListOk (l : List Stroke) : Prop := ∀ st ∈ l, st.points ≠ []

/-- Every entry of the per page mapping is a non-empty list of strokes that
each have at least one point. -/
def PAOk (pa : List (String × List Stroke)) : Prop :=
  ∀ e ∈ pa, e.2 ≠ [] ∧ StrokeListOk e.2

/-- When no stroke capture is active, no long press position is armed. -/
def IdleNoLongPress (s : CanvasState) : Prop :=
  s.isDrawing = false → s.longPressStartPos = none

/-- The ghost counter of scheduled but unfired frame callbacks agrees with the
highlightRAF handle, so it never exceeds one. -/
def RAFBalanced (s : CanvasState) : Prop :=
  s.pendingRAFCount = if s.highlightRAF then 1 else 0

/-- A concrete pen pointer sample used by the witnesses. -/
def samplePenEvent : RawEvent :=
  { pointerType := PointerType.pen, clientX := 10, clientY := 10,
    pressure := 1 / 2, tiltX := 0, tiltY := 0, timeStamp := 0 }

/-- A second concrete pen pointer sample used by the witnesses. -/
def sampleMoveEvent : RawEvent :=
  { pointerType := PointerType.pen, clientX := 12, clientY := 12,
    pressure := 1 / 2, tiltX := 0, tiltY := 0, timeStamp := 1 }

/-- The stroke that pressing samplePenEvent on a fresh 1 by 1 canvas
creates. -/
def sampleDownStroke : Stroke :=
  { points := [getPointFromEvent (initState 1 1 1 0 0).geom samplePenEvent],
    tool := Tool.pen, color := "#000000",
    lineWidth := getLineWidth Tool.pen
      (getPointFromEvent (initState 1 1 1 0 0).geom samplePenEvent).pressure }

/-- A concrete one point stroke used by the witnesses. -/
def sampleStroke : Stroke :=
  { points := [default], tool := Tool.pen, color := "#000000", lineWidth := 1 }

theorem mapMOpt_map (f : α → Option β) (g : β → α) (h : ∀ b, f (g b) = some b) :
    ∀ l : List β, mapMOpt f (l.map g) = some l := by
  intro l
  induction l with
  | nil => rfl
  | cons b rest ih => simp [mapMOpt, h, ih]

theorem decodePoint_encodePoint (p : Point) : decodePoint (encodePoint p) = some p := rfl

theorem toolFromString_toolToString (t : Tool) :
    toolFromString (toolToString t) = some t := by
  cases t <;> rfl

theorem decodeStroke_encodeStroke (s : Stroke) :
    decodeStroke (encodeStroke s) = some s := by
  cases s with
  | mk points tool color lineWidth =>
    simp [encodeStroke, decodeStroke, getField, asArr, asStr, asNum,
          mapMOpt_map decodePoint encodePoint decodePoint_encodePoint,
          toolFromString_toolToString]

theorem decodeStrokeList_encode (l : List Stroke) :
    decodeStrokeList (Json.arr (l.map encodeStroke)) = some l := by
  simp [decodeStrokeList, asArr,
        mapMOpt_map decodeStroke encodeStroke decodeStroke_encodeStroke]

theorem decodePageMap_encode (d : AnnotationData) :
    decodePageMap (encodeAnnotationData d) = some d.pageAnnotations := by
  unfold decodePageMap encodeAnnotationData
  simp [getField]
  exact mapMOpt_map _ _ (fun e => by simp [decodeStrokeList_encode]) d.pageAnnotations

theorem saveAnnotations_empty_of_present (ver pdfPath : String) (v : Vault) (j : Json)
    (hg : vaultGet v (annotationPath pdfPath) = some j) :
    saveAnnotations ver pdfPath [] v = vaultDelete v (annotationPath pdfPath) := by
  unfold saveAnnotations
  simp [hg]

theorem vaultGet_write (v : Vault) (path : String) (content : Json) :
    vaultGet (vaultWrite v path content) path = some content := by
  unfold vaultWrite
  induction v with
  | nil => simp [vaultDelete, vaultGet]
  | cons f rest ih =>
    by_cases h : f.1 = path <;> simp [vaultDelete, vaultGet, h, ih]

theorem vaultGet_delete (v : Vault) (path : String) :
    vaultGet (vaultDelete v path) path = none := by
  induction v with
  | nil => rfl
  | cons f rest ih =>
    by_cases h : f.1 = path <;> simp [vaultDelete, vaultGet, h, ih]

/-- C1: for every non-empty Page Annotation Set, saving it and then loading it
back for the same document identifier yields an equal set: the same page keys in
the same order, the same stroke order per page, the same point sequences, and
the same tool, color and lineWidth per stroke. -/
theorem save_load_roundtrip (version pdfPath : String)
    (prior pa : List (String × List Stroke)) (vault : Vault) (h : pa ≠ []) :
    loadAnnotations pdfPath prior (saveAnnotations version pdfPath pa vault) = pa := by
  have hlen : 0 < pa.length := List.length_pos.mpr h
  unfold saveAnnotations
  rw [if_pos hlen]
  unfold loadAnnotations
  rw [vaultGet_write]
  simp [decodePageMap_encode]

/-- Witness for save_load_roundtrip at a concrete one page, one stroke set. -/
theorem save_load_roundtrip_witness :
    ([("1", [({ points := [default], tool := Tool.pen, color := "#000000",
                lineWidth := 1 } : Stroke)])] : List (String × List Stroke)) ≠ [] ∧
    loadAnnotations "doc.pdf" []
      (saveAnnotations "v0.5.1" "doc.pdf"
        [("1", [{ points := [default], tool := Tool.pen, color := "#000000",
                  lineWidth := 1 }])] []) =
      [("1", [{ points := [default], tool := Tool.pen, color := "#000000",
                lineWidth := 1 }])] :=
  ⟨by decide, save_load_roundtrip "v0.5.1" "doc.pdf" []
    [("1", [{ points := [default], tool := Tool.pen, color := "#000000",
              lineWidth := 1 }])] [] (by decide)⟩

/-- C2: saving an empty Page Annotation Set after a prior non-empty save deletes
the existing sidecar artifact instead of writing an empty one, and a subsequent
load (the in memory set being empty at that point) returns an empty set. -/
theorem save_empty_deletes_sidecar (ver1 ver2 pdfPath : String)
    (pa : List (String × List Stroke)) (vault : Vault) (h : pa ≠ []) :
    vaultGet (saveAnnotations ver2 pdfPath []
        (saveAnnotations ver1 pdfPath pa vault)) (annotationPath pdfPath) = none ∧
    loadAnnotations pdfPath []
      (saveAnnotations ver2 pdfPath [] (saveAnnotations ver1 pdfPath pa vault)) = [] := by
  have hlen : 0 < pa.length := List.length_pos.mpr h
  have h1 : vaultGet (saveAnnotations ver1 pdfPath pa vault) (annotationPath pdfPath) =
      some (encodeAnnotationData
        { version := ver1, pdfPath := pdfPath, pageAnnotations := pa }) := by
    unfold saveAnnotations
    rw [if_pos hlen]
    exact vaultGet_write _ _ _
  rw [saveAnnotations_empty_of_present ver2 pdfPath _ _ h1]
  constructor
  · exact vaultGet_delete _ _
  · unfold loadAnnotations
    rw [vaultGet_delete]

/-- Witness for save_empty_deletes_sidecar at a concrete one page set. -/
theorem save_empty_deletes_sidecar_witness :
    ([("1", [({ points := [default], tool := Tool.pen, color := "#000000",
                lineWidth := 1 } : Stroke)])] : List (String × List Stroke)) ≠ [] ∧
    (vaultGet (saveAnnotations "v2" "doc.pdf" []
        (saveAnnotations "v1" "doc.pdf"
          [("1", [{ points := [default], tool := Tool.pen, color := "#000000",
                    lineWidth := 1 }])] [])) (annotationPath "doc.pdf") = none ∧
     loadAnnotations "doc.pdf" []
       (saveAnnotations "v2" "doc.pdf" []
         (saveAnnotations "v1" "doc.pdf"
           [("1", [{ points := [default], tool := Tool.pen, color := "#000000",
                     lineWidth := 1 }])] [])) = []) :=
  ⟨by decide, save_empty_deletes_sidecar "v1" "v2" "doc.pdf"
    [("1", [{ points := [default], tool := Tool.pen, color := "#000000",
              lineWidth := 1 }])] [] (by decide)⟩

theorem longPressMoveCheck_cases (main : RawEvent) (s : CanvasState) :
    longPressMoveCheck main s = s ∨ longPressMoveCheck main s = cancelLongPress s := by
  unfold longPressMoveCheck
  cases hp : s.longPressStartPos with
  | none => left; rfl
  | some pos =>
    by_cases h1 : s.longPressTimeoutActive
    · by_cases h2 : LONG_PRESS_THRESHOLD * LONG_PRESS_THRESHOLD <
        (main.clientX - pos.1) * (main.clientX - pos.1) +
        (main.clientY - pos.2) * (main.clientY - pos.2)
      · right; simp [h1, h2]
      · left; simp [h1, h2]
    · left; simp [h1]

theorem cancelLongPress_eq (s : CanvasState) :
    cancelLongPress s =
      { s with longPressTimeoutActive := false, longPressStartPos := none } := rfl

theorem drawSegmentStep_proj (s : CanvasState) :
    (drawSegmentStep s).isDrawing = s.isDrawing ∧
    (drawSegmentStep s).currentStroke = s.currentStroke ∧
    (drawSegmentStep s).strokes = s.strokes ∧
    (drawSegmentStep s).geom = s.geom ∧
    (drawSegmentStep s).currentTool = s.currentTool ∧
    (drawSegmentStep s).currentColor = s.currentColor ∧
    (drawSegmentStep s).longPressStartPos = s.longPressStartPos ∧
    (drawSegmentStep s).longPressTimeoutActive = s.longPressTimeoutActive ∧
    (drawSegmentStep s).highlightRAF = s.highlightRAF ∧
    (drawSegmentStep s).pendingRAFCount = s.pendingRAFCount := by
  unfold drawSegmentStep
  cases hc : s.currentStroke with
  | none => simp [hc]
  | some st =>
    by_cases h2 : st.points.length < 2
    · simp [hc, h2]
    · by_cases h3 : 3 ≤ st.points.length <;> simp [hc, h2, h3]

theorem drawHighlighterSegment_proj (s : CanvasState) :
    (drawHighlighterSegment s).isDrawing = s.isDrawing ∧
    (drawHighlighterSegment s).currentStroke = s.currentStroke ∧
    (drawHighlighterSegment s).strokes = s.strokes ∧
    (drawHighlighterSegment s).geom = s.geom ∧
    (drawHighlighterSegment s).currentTool = s.currentTool ∧
    (drawHighlighterSegment s).currentColor = s.currentColor ∧
    (drawHighlighterSegment s).longPressStartPos = s.longPressStartPos ∧
    (drawHighlighterSegment s).longPressTimeoutActive = s.longPressTimeoutActive := by
  unfold drawHighlighterSegment
  cases hc : s.currentStroke with
  | none => simp [hc]
  | some st =>
    by_cases h1 : s.highlightCanvasActive = false
    · simp [hc, h1]
    · by_cases h2 : st.points.length < 2
      · simp [hc, h1, h2]
      · by_cases h3 : s.highlightRAF <;> simp [hc, h1, h2, h3]

theorem handlePointerDown_cases (e : RawEvent) (s : CanvasState) :
    handlePointerDown e s = s ∨
    ((handlePointerDown e s).isDrawing = true ∧
     (handlePointerDown e s).highlightRAF = s.highlightRAF ∧
     (handlePointerDown e s).pendingRAFCount = s.pendingRAFCount) := by
  unfold handlePointerDown
  by_cases h1 : s.currentTool = Tool.hand
  · left; simp [h1]
  · by_cases h2 : e.pointerType = PointerType.touch
    · left; simp [h1, h2]
    · right
      by_cases h3 : s.currentTool = Tool.highlighter <;>
        simp [h1, h2, h3, drawPoint]

theorem handlePointerMove_fields (main : RawEvent) (coalesced : Option (List RawEvent))
    (s : CanvasState) :
    (handlePointerMove main coalesced s).isDrawing = s.isDrawing ∧
    ((handlePointerMove main coalesced s).longPressStartPos = s.longPressStartPos ∨
     (handlePointerMove main coalesced s).longPressStartPos = none) := by
  rcases longPressMoveCheck_cases main s with hc | hc <;>
  · unfold handlePointerMove
    rw [hc]
    by_cases h1 : s.isDrawing = false
    · simp [cancelLongPress, h1]
    · cases h2 : s.currentStroke with
      | none => simp [cancelLongPress, h1, h2]
      | some st =>
        by_cases h3 : s.currentTool = Tool.highlighter <;>
          simp [cancelLongPress, h1, h2, h3,
                drawSegmentStep_proj, drawHighlighterSegment_proj]

theorem handlePointerUp_pos (s : CanvasState) :
    (handlePointerUp s).longPressStartPos = none := by
  unfold handlePointerUp
  by_cases h1 : s.isDrawing = false
  · simp [cancelLongPress, h1]
  · cases h2 : s.currentStroke with
    | none =>
      by_cases h3 : s.highlightCanvasActive && s.backgroundSnapshotActive <;>
      by_cases h4 : s.highlightRAF <;>
        simp [cancelLongPress, compositeHighlightCanvas, h1, h2, h3, h4]
    | some st =>
      by_cases h3 : s.highlightCanvasActive && s.backgroundSnapshotActive <;>
      by_cases h4 : s.highlightRAF <;>
      by_cases h5 : 0 < st.points.length <;>
        simp [cancelLongPress, compositeHighlightCanvas, h1, h2, h3, h4, h5]

theorem rafFire_fields (s : CanvasState) :
    (rafFire s).isDrawing = s.isDrawing ∧
    (rafFire s).longPressStartPos = s.longPressStartPos ∧
    (rafFire s).strokes = s.strokes ∧
    (rafFire s).currentStroke = s.currentStroke := by
  unfold rafFire
  by_cases h1 : s.highlightRAF = false
  · simp [h1]
  · by_cases h2 : s.needsHighlightUpdate
    · by_cases h3 : s.highlightCanvasActive && s.backgroundSnapshotActive <;>
        simp [compositeHighlightCanvas, h1, h2, h3]
    · simp [h1, h2]

theorem longPressFire_INLP (s : CanvasState) (h : IdleNoLongPress s) :
    IdleNoLongPress (longPressFire s) := by
  intro hf
  unfold longPressFire at hf ⊢
  by_cases h1 : s.longPressTimeoutActive = false
  · simp [h1] at hf ⊢
    exact h hf
  · cases h2 : s.longPressStartPos with
    | some pos => simp [h1, h2]
    | none => simp [h1, h2]

theorem step_INLP (ev : Event) (s : CanvasState) (h : IdleNoLongPress s) :
    IdleNoLongPress (step ev s) := by
  cases ev with
  | down e =>
    show IdleNoLongPress (handlePointerDown e s)
    rcases handlePointerDown_cases e s with hc | hc
    · rw [hc]; exact h
    · intro hf
      rw [hc.1] at hf
      exact absurd hf (by simp)
  | move main coalesced =>
    show IdleNoLongPress (handlePointerMove main coalesced s)
    obtain ⟨h1, h2⟩ := handlePointerMove_fields main coalesced s
    intro hf
    rw [h1] at hf
    rcases h2 with h2 | h2
    · rw [h2]; exact h hf
    · exact h2
  | up e =>
    intro _
    exact handlePointerUp_pos s
  | rafFire =>
    show IdleNoLongPress (rafFire s)
    obtain ⟨h1, h2, _, _⟩ := rafFire_fields s
    intro hf
    rw [h1] at hf
    rw [h2]
    exact h hf
  | longPressFire => exact longPressFire_INLP s h
  | setTool t =>
    intro hf
    simp only [step, setTool] at hf ⊢
    exact h hf
  | setColor c =>
    intro hf
    simp only [step, setColor] at hf ⊢
    exact h hf
  | clear =>
    intro hf
    simp only [step, clear] at hf ⊢
    exact h hf
  | resize w hh =>
    intro hf
    simp only [step, resize, redrawAllStrokes] at hf ⊢
    exact h hf
  | loadStrokes l =>
    intro hf
    simp only [step, loadStrokes, redrawAllStrokes] at hf ⊢
    exact h hf

theorem runEvents_INLP (events : List Event) (s : CanvasState) (h : IdleNoLongPress s) :
    IdleNoLongPress (runEvents events s) := by
  induction events generalizing s with
  | nil => exact h
  | cons ev rest ih => exact ih _ (step_INLP ev s h)

/-- C4: for the pen tool the resolved line width is the linear interpolation
1 + pressure * (4 - 1) between the minimum width 1 and the maximum width 4;
consequently the width at pressure 1 is strictly greater than the width at
pressure 0, and width is non-decreasing in pressure on the unit interval. -/
theorem pen_width_linear_monotone :
    (∀ p : ℚ, getLineWidth Tool.pen p = 1 + p * 3) ∧
    getLineWidth Tool.pen 0 < getLineWidth Tool.pen 1 ∧
    (∀ p q : ℚ, 0 ≤ p → p ≤ q → q ≤ 1 →
      getLineWidth Tool.pen p ≤ getLineWidth Tool.pen q) := by
  refine ⟨fun p => ?_, ?_, fun p q hp hpq hq => ?_⟩
  · simp only [getLineWidth, PEN_MIN_WIDTH, PEN_MAX_WIDTH]
    ring
  · norm_num [getLineWidth, PEN_MIN_WIDTH, PEN_MAX_WIDTH]
  · simp only [getLineWidth, PEN_MIN_WIDTH, PEN_MAX_WIDTH]
    nlinarith

/-- Witness for pen_width_linear_monotone at pressures 0 and 1. -/
theorem pen_width_linear_monotone_witness :
    (0 : ℚ) ≤ 0 ∧ (0 : ℚ) ≤ 1 ∧ (1 : ℚ) ≤ 1 ∧
    getLineWidth Tool.pen 0 ≤ getLineWidth Tool.pen 1 :=
  ⟨le_refl 0, by norm_num, le_refl 1,
   pen_width_linear_monotone.2.2 0 1 (le_refl 0) (by norm_num) (le_refl 1)⟩

/-- C7: resize leaves the committed stroke list unchanged, so getStrokes after
resize returns exactly the strokes from before the resize. -/
theorem resize_preserves_strokes (s : CanvasState) (w h : ℚ) :
    getStrokes (step (Event.resize w h) s) = getStrokes s := rfl

/-- C10: a device reported pressure of exactly 0 is recorded as 0.5 by the
falsy-or fallback of getPointFromEvent, and under device pressures in the unit
interval every captured point has strictly positive pressure. -/
theorem pressure_fallback_positive :
    (∀ (g : Geom) (e : RawEvent), e.pressure = 0 →
      (getPointFromEvent g e).pressure = 1 / 2) ∧
    (∀ (g : Geom) (e : RawEvent), 0 ≤ e.pressure → e.pressure ≤ 1 →
      0 < (getPointFromEvent g e).pressure) := by
  constructor
  · intro g e h
    simp [getPointFromEvent, h]
  · intro g e h0 h1
    simp only [getPointFromEvent]
    split
    · norm_num
    · rename_i hne
      exact lt_of_le_of_ne h0 (Ne.symm hne)

/-- Witness for pressure_fallback_positive at a zero pressure sample. -/
theorem pressure_fallback_positive_witness :
    ({ pointerType := PointerType.mouse, clientX := 3, clientY := 4, pressure := 0,
       tiltX := 0, tiltY := 0, timeStamp := 0 } : RawEvent).pressure = 0 ∧
    (getPointFromEvent
      { canvasWidth := 100, canvasHeight := 100, rectLeft := 0, rectTop := 0,
        rectWidth := 100, rectHeight := 100 }
      { pointerType := PointerType.mouse, clientX := 3, clientY := 4, pressure := 0,
        tiltX := 0, tiltY := 0, timeStamp := 0 }).pressure = 1 / 2 :=
  ⟨rfl, pressure_fallback_positive.1
    { canvasWidth := 100, canvasHeight := 100, rectLeft := 0, rectTop := 0,
      rectWidth := 100, rectHeight := 100 }
    { pointerType := PointerType.mouse, clientX := 3, clientY := 4, pressure := 0,
      tiltX := 0, tiltY := 0, timeStamp := 0 } rfl⟩

/-- C9: in every reachable engine state in which no stroke capture is active,
processing a pointer move event is a complete no-op: the whole state, in
particular the committed stroke list and the in progress stroke, is unchanged
(and the total step function raises no error). -/
theorem pointer_move_noop_when_idle (width height : Nat) (dpr rectLeft rectTop : ℚ)
    (events : List Event) (main : RawEvent) (coalesced : Option (List RawEvent))
    (h : (runEvents events (initState width height dpr rectLeft rectTop)).isDrawing = false) :
    step (Event.move main coalesced)
        (runEvents events (initState width height dpr rectLeft rectTop)) =
      runEvents events (initState width height dpr rectLeft rectTop) := by
  have hpos : (runEvents events (initState width height dpr rectLeft rectTop)).longPressStartPos
      = none :=
    runEvents_INLP events (initState width height dpr rectLeft rectTop) (fun _ => rfl) h
  show handlePointerMove main coalesced _ = _
  unfold handlePointerMove longPressMoveCheck
  rw [hpos]
  simp [h]

/-- Witness for pointer_move_noop_when_idle on a freshly constructed canvas. -/
theorem pointer_move_noop_when_idle_witness :
    (runEvents [] (initState 100 100 1 0 0)).isDrawing = false ∧
    step (Event.move sampleMoveEvent none) (runEvents [] (initState 100 100 1 0 0)) =
      runEvents [] (initState 100 100 1 0 0) :=
  ⟨rfl, pointer_move_noop_when_idle 100 100 1 0 0 [] sampleMoveEvent none rfl⟩

theorem drawHighlighterSegment_RAF (s : CanvasState) (h : RAFBalanced s) :
    RAFBalanced (drawHighlighterSegment s) := by
  unfold RAFBalanced at h ⊢
  unfold drawHighlighterSegment
  cases hc : s.currentStroke with
  | none => exact h
  | some st =>
    by_cases h1 : s.highlightCanvasActive = false
    · simp [hc, h1, h]
    · by_cases h2 : st.points.length < 2
      · simp [hc, h1, h2, h]
      · by_cases h3 : s.highlightRAF <;> simp [hc, h1, h2, h3] <;> simp [h3] at h <;> simp [h]

theorem handlePointerUp_RAF (s : CanvasState) (h : RAFBalanced s) :
    RAFBalanced (handlePointerUp s) := by
  unfold RAFBalanced at h ⊢
  unfold handlePointerUp
  by_cases h1 : s.isDrawing = false
  · simp [cancelLongPress, h1, h]
  · cases h2 : s.currentStroke with
    | none =>
      by_cases h3 : s.highlightCanvasActive && s.backgroundSnapshotActive <;>
      by_cases h4 : s.highlightRAF <;>
        simp [cancelLongPress, compositeHighlightCanvas, h1, h2, h3, h4] <;>
        simp [h4] at h <;> simp [h]
    | some st =>
      by_cases h3 : s.highlightCanvasActive && s.backgroundSnapshotActive <;>
      by_cases h4 : s.highlightRAF <;>
      by_cases h5 : 0 < st.points.length <;>
        simp [cancelLongPress, compositeHighlightCanvas, h1, h2, h3, h4, h5] <;>
        simp [h4] at h <;> simp [h]

theorem rafFire_RAF (s : CanvasState) (h : RAFBalanced s) :
    RAFBalanced (rafFire s) := by
  unfold RAFBalanced at h ⊢
  unfold rafFire
  by_cases h1 : s.highlightRAF = false
  · simp [h1] at h ⊢
    simp [h1, h]
  · have hRAF : s.highlightRAF = true := by
      cases hb : s.highlightRAF
      · exact absurd hb h1
      · rfl
    rw [hRAF] at h
    simp at h
    by_cases h2 : s.needsHighlightUpdate
    · by_cases h3 : s.highlightCanvasActive && s.backgroundSnapshotActive <;>
        simp [compositeHighlightCanvas, h1, h2, h3, h]
    · simp [h1, h2, h]

theorem step_RAF (ev : Event) (s : CanvasState) (h : RAFBalanced s) :
    RAFBalanced (step ev s) := by
  cases ev with
  | down e =>
    show RAFBalanced (handlePointerDown e s)
    rcases handlePointerDown_cases e s with hc | hc
    · rw [hc]; exact h
    · unfold RAFBalanced at h ⊢
      rw [hc.2.1, hc.2.2]
      exact h
  | move main coalesced =>
    show RAFBalanced (handlePointerMove main coalesced s)
    rcases longPressMoveCheck_cases main s with hc | hc <;>
    · unfold handlePointerMove
      rw [hc]
      by_cases h1 : s.isDrawing = false
      · simpa [RAFBalanced, cancelLongPress, h1] using h
      · cases h2 : s.currentStroke with
        | none => simpa [RAFBalanced, cancelLongPress, h1, h2] using h
        | some st =>
          by_cases h3 : s.currentTool = Tool.highlighter
          · simp [cancelLongPress, h1, h2, h3]
            exact drawHighlighterSegment_RAF _
              (by simpa [RAFBalanced, cancelLongPress] using h)
          · simp [cancelLongPress, h1, h2, h3, RAFBalanced, drawSegmentStep_proj]
            simpa [RAFBalanced] using h
  | up e => exact handlePointerUp_RAF s h
  | rafFire => exact rafFire_RAF s h
  | longPressFire =>
    show RAFBalanced (longPressFire s)
    unfold RAFBalanced at h ⊢
    unfold longPressFire
    by_cases h1 : s.longPressTimeoutActive = false
    · simp [h1, h]
    · cases h2 : s.longPressStartPos <;> simp [h1, h2, h]
  | setTool t => exact h
  | setColor c => exact h
  | clear => exact h
  | resize w hh =>
    show RAFBalanced (resize w hh s)
    unfold RAFBalanced at h ⊢
    simp [resize, redrawAllStrokes, h]
  | loadStrokes l =>
    show RAFBalanced (loadStrokes l s)
    unfold RAFBalanced at h ⊢
    simp [loadStrokes, redrawAllStrokes, h]

theorem runEvents_RAF (events : List Event) (s : CanvasState) (h : RAFBalanced s) :
    RAFBalanced (runEvents events s) := by
  induction events generalizing s with
  | nil => exact h
  | cons ev rest ih => exact ih _ (step_RAF ev s h)

/-- C8: in every reachable engine state, at most one frame throttled composite
callback is pending: drawHighlighterSegment only schedules when none is in
flight, so the ghost count of scheduled but unfired callbacks never exceeds
one. -/
theorem raf_pending_at_most_one (width height : Nat) (dpr rectLeft rectTop : ℚ)
    (events : List Event) :
    (runEvents events (initState width height dpr rectLeft rectTop)).pendingRAFCount ≤ 1 := by
  have hb : RAFBalanced (runEvents events (initState width height dpr rectLeft rectTop)) :=
    runEvents_RAF events (initState width height dpr rectLeft rectTop) rfl
  unfold RAFBalanced at hb
  rw [hb]
  cases (runEvents events (initState width height dpr rectLeft rectTop)).highlightRAF <;> simp

theorem handlePointerUp_strokes (s : CanvasState) (st : Stroke)
    (hmem : st ∈ (handlePointerUp s).strokes) : st ∈ s.strokes ∨ st.points ≠ [] := by
  unfold handlePointerUp at hmem
  by_cases h1 : s.isDrawing = false
  · left
    simpa [cancelLongPress, h1] using hmem
  · cases h2 : s.currentStroke with
    | none =>
      left
      by_cases h3 : s.highlightCanvasActive && s.backgroundSnapshotActive <;>
      by_cases h4 : s.highlightRAF <;>
        simpa [cancelLongPress, compositeHighlightCanvas, h1, h2, h3, h4] using hmem
    | some st0 =>
      by_cases h5 : 0 < st0.points.length
      · have hmem2 : st ∈ s.strokes ++ [st0] := by
          by_cases h3 : s.highlightCanvasActive && s.backgroundSnapshotActive <;>
          by_cases h4 : s.highlightRAF <;>
            simpa [cancelLongPress, compositeHighlightCanvas, h1, h2, h3, h4, h5] using hmem
        rcases List.mem_append.mp hmem2 with hm | hm
        · left; exact hm
        · right
          have he : st = st0 := by simpa using hm
          rw [he]
          exact List.length_pos.mp h5
      · left
        by_cases h3 : s.highlightCanvasActive && s.backgroundSnapshotActive <;>
        by_cases h4 : s.highlightRAF <;>
          simpa [cancelLongPress, compositeHighlightCanvas, h1, h2, h3, h4, h5] using hmem

theorem PAOk_paSet : ∀ (pa : List (String × List Stroke)) (k : String) (l : List Stroke),
    PAOk pa → l ≠ [] → StrokeListOk l → PAOk (paSet pa k l) := by
  intro pa
  induction pa with
  | nil =>
    intro k l _ hne hok e he
    simp [paSet] at he
    rw [he]
    exact ⟨hne, hok⟩
  | cons f rest ih =>
    intro k l hpa hne hok e he
    unfold paSet at he
    by_cases hk : f.1 = k
    · rw [if_pos hk] at he
      rcases List.mem_cons.mp he with he | he
      · rw [he]; exact ⟨hne, hok⟩
      · exact hpa e (List.mem_cons_of_mem f he)
    · rw [if_neg hk] at he
      rcases List.mem_cons.mp he with he | he
      · rw [he]; exact hpa f (List.mem_cons_self f rest)
      · exact ih k l (fun x hx => hpa x (List.mem_cons_of_mem f hx)) hne hok e he

theorem PAOk_paDelete : ∀ (pa : List (String × List Stroke)) (k : String),
    PAOk pa → PAOk (paDelete pa k) := by
  intro pa
  induction pa with
  | nil => intro k h; exact h
  | cons f rest ih =>
    intro k hpa e he
    unfold paDelete at he
    by_cases hk : f.1 = k
    · rw [if_pos hk] at he
      exact ih k (fun x hx => hpa x (List.mem_cons_of_mem f hx)) e he
    · rw [if_neg hk] at he
      rcases List.mem_cons.mp he with he | he
      · rw [he]; exact hpa f (List.mem_cons_self f rest)
      · exact ih k (fun x hx => hpa x (List.mem_cons_of_mem f hx)) e he

theorem PAOk_flushCanvas (pa : List (String × List Stroke)) (c : Nat × List Stroke)
    (hpa : PAOk pa) (hc : StrokeListOk c.2) : PAOk (flushCanvas pa c) := by
  unfold flushCanvas
  by_cases h1 : 0 < c.2.length
  · rw [if_pos h1]
    exact PAOk_paSet pa (Nat.repr c.1) c.2 hpa (List.length_pos.mp h1) hc
  · rw [if_neg h1]
    cases hg : paGet pa (Nat.repr c.1)
    · simpa [hg] using hpa
    · simp only [hg]
      exact PAOk_paDelete pa (Nat.repr c.1) hpa

theorem PAOk_saveAll : ∀ (canvases : List (Nat × List Stroke))
    (pa : List (String × List Stroke)), PAOk pa →
    (∀ c ∈ canvases, StrokeListOk c.2) → PAOk (saveAllPageAnnotations canvases pa) := by
  intro canvases
  induction canvases with
  | nil => intro pa hpa _; exact hpa
  | cons c rest ih =>
    intro pa hpa hc
    show PAOk (saveAllPageAnnotations rest (flushCanvas pa c))
    exact ih (flushCanvas pa c)
      (PAOk_flushCanvas pa c hpa (hc c (List.mem_cons_self c rest)))
      (fun x hx => hc x (List.mem_cons_of_mem c hx))

/-- C6: pointer up never commits a stroke with zero points (every stroke of the
post-up committed list was already there or is non-empty), and flushing mounted
canvases whose strokes satisfy the invariant into a per page mapping satisfying
the invariant yields a mapping in which every page has a non-empty stroke list
and every stroke has at least one point — the mapping that saveAnnotations
persists. -/
theorem no_empty_stroke_persisted (pa : List (String × List Stroke))
    (canvases : List (Nat × List Stroke)) (hpa : PAOk pa)
    (hc : ∀ c ∈ canvases, StrokeListOk c.2) :
    (∀ (s : CanvasState) (st : Stroke), st ∈ (handlePointerUp s).strokes →
      st ∈ s.strokes ∨ st.points ≠ []) ∧
    PAOk (saveAllPageAnnotations canvases pa) :=
  ⟨fun s st hm => handlePointerUp_strokes s st hm, PAOk_saveAll canvases pa hpa hc⟩

/-- Witness for no_empty_stroke_persisted at a concrete mapping and canvas. -/
theorem no_empty_stroke_persisted_witness :
    PAOk [("1", [sampleStroke])] ∧
    (∀ c ∈ [((2 : Nat), [sampleStroke])], StrokeListOk c.2) ∧
    ((∀ (s : CanvasState) (st : Stroke), st ∈ (handlePointerUp s).strokes →
        st ∈ s.strokes ∨ st.points ≠ []) ∧
     PAOk (saveAllPageAnnotations [((2 : Nat), [sampleStroke])] [("1", [sampleStroke])])) :=
  ⟨by unfold PAOk StrokeListOk; decide,
   by unfold StrokeListOk; decide,
   no_empty_stroke_persisted [("1", [sampleStroke])] [((2 : Nat), [sampleStroke])]
     (by unfold PAOk StrokeListOk; decide) (by unfold StrokeListOk; decide)⟩

theorem runEvents_cons (e : Event) (l : List Event) (s : CanvasState) :
    runEvents (e :: l) s = runEvents l (step e s) := rfl

theorem runEvents_append (l1 l2 : List Event) (s : CanvasState) :
    runEvents (l1 ++ l2) s = runEvents l2 (runEvents l1 s) := by
  unfold runEvents
  exact List.foldl_append _ _ _ _

theorem handlePointerDown_touch (e : RawEvent) (t : CanvasState)
    (h : e.pointerType = PointerType.touch) : handlePointerDown e t = t := by
  unfold handlePointerDown
  by_cases h1 : t.currentTool = Tool.hand
  · simp [h1]
  · simp [h1, h]

theorem handlePointerDown_accepted (e : RawEvent) (s : CanvasState)
    (hTool : s.currentTool ≠ Tool.hand) (hType : e.pointerType ≠ PointerType.touch) :
    (handlePointerDown e s).isDrawing = true ∧
    (handlePointerDown e s).currentStroke = some
      { points := [getPointFromEvent s.geom e], tool := s.currentTool,
        color := s.currentColor,
        lineWidth := getLineWidth s.currentTool (getPointFromEvent s.geom e).pressure } ∧
    (handlePointerDown e s).strokes = s.strokes ∧
    (handlePointerDown e s).geom = s.geom ∧
    (handlePointerDown e s).currentTool = s.currentTool ∧
    (handlePointerDown e s).currentColor = s.currentColor := by
  unfold handlePointerDown
  rw [if_neg hTool, if_neg hType]
  by_cases h3 : s.currentTool = Tool.highlighter <;> simp [h3, drawPoint]

theorem handlePointerMove_drawing (main : RawEvent) (coalesced : Option (List RawEvent))
    (s : CanvasState) (st : Stroke)
    (hd : s.isDrawing = true) (hcs : s.currentStroke = some st) :
    (handlePointerMove main coalesced s).isDrawing = true ∧
    (handlePointerMove main coalesced s).currentStroke =
      some { st with
             points := st.points ++ (coalesced.getD [main]).map (getPointFromEvent s.geom) } ∧
    (handlePointerMove main coalesced s).strokes = s.strokes ∧
    (handlePointerMove main coalesced s).geom = s.geom ∧
    (handlePointerMove main coalesced s).currentTool = s.currentTool ∧
    (handlePointerMove main coalesced s).currentColor = s.currentColor := by
  rcases longPressMoveCheck_cases main s with hc | hc <;>
  · unfold handlePointerMove
    rw [hc]
    by_cases h3 : s.currentTool = Tool.highlighter <;>
      simp [cancelLongPress, hd, hcs, h3, drawSegmentStep_proj, drawHighlighterSegment_proj]

theorem runEvents_moves_drawing :
    ∀ (moves : List (RawEvent × Option (List RawEvent))) (s : CanvasState) (st : Stroke),
      s.isDrawing = true → s.currentStroke = some st →
      (runEvents (moves.map (fun m => Event.move m.1 m.2)) s).isDrawing = true ∧
      (runEvents (moves.map (fun m => Event.move m.1 m.2)) s).currentStroke =
        some { st with points := st.points ++
          (moves.map (fun m => (m.2.getD [m.1]).map (getPointFromEvent s.geom))).flatten } ∧
      (runEvents (moves.map (fun m => Event.move m.1 m.2)) s).strokes = s.strokes ∧
      (runEvents (moves.map (fun m => Event.move m.1 m.2)) s).geom = s.geom ∧
      (runEvents (moves.map (fun m => Event.move m.1 m.2)) s).currentTool = s.currentTool ∧
      (runEvents (moves.map (fun m => Event.move m.1 m.2)) s).currentColor = s.currentColor := by
  intro moves
  induction moves with
  | nil =>
    intro s st hd hcs
    refine ⟨hd, ?_, rfl, rfl, rfl, rfl⟩
    simp [runEvents, hcs]
  | cons m rest ih =>
    intro s st hd hcs
    rw [List.map_cons, runEvents_cons,
        show step (Event.move m.1 m.2) s = handlePointerMove m.1 m.2 s from rfl]
    obtain ⟨m1, m2, m3, m4, m5, m6⟩ := handlePointerMove_drawing m.1 m.2 s st hd hcs
    obtain ⟨i1, i2, i3, i4, i5, i6⟩ := ih (handlePointerMove m.1 m.2 s) _ m1 m2
    rw [m4] at i2
    refine ⟨i1, ?_, by rw [i3, m3], by rw [i4, m4], by rw [i5, m5], by rw [i6, m6]⟩
    rw [i2]
    simp [List.append_assoc]

theorem handlePointerUp_commit (s : CanvasState) (st : Stroke)
    (hd : s.isDrawing = true) (hcs : s.currentStroke = some st)
    (hne : 0 < st.points.length) :
    (handlePointerUp s).strokes = s.strokes ++ [st] := by
  unfold handlePointerUp
  by_cases h3 : s.highlightCanvasActive && s.backgroundSnapshotActive <;>
  by_cases h4 : s.highlightRAF <;>
    simp [cancelLongPress, compositeHighlightCanvas, hd, hcs, h3, h4, hne]

/-- C3, counterexample to the stated point count: a pen pointer down followed
by pointer up with zero move events commits exactly one stroke whose point
count is 1 (the pointer down point), not 0 as the number of delivered move
points would demand. -/
theorem pen_stroke_point_count_cex :
    ((runEvents [Event.down samplePenEvent, Event.up samplePenEvent]
        (initState 100 100 1 0 0)).strokes.map (fun st => st.points.length)) = [1] ∧
    (1 : Nat) ≠ 0 := by
  constructor
  · decide
  · decide

/-- C3, amended: a sequence of touch-kind pointer downs commits nothing and
leaves the state untouched; and a pen-kind down, move*, up sequence, from any
state whose tool is not hand, commits exactly one stroke whose point count is
one (the pointer down point) plus the number of points delivered by the move
events (one per coalesced sub-event, or one per move event without
coalescing). -/
theorem palm_rejection_pen_commit (s : CanvasState) (hTool : s.currentTool ≠ Tool.hand)
    (e0 : RawEvent) (h0 : e0.pointerType = PointerType.pen)
    (moves : List (RawEvent × Option (List RawEvent))) (eUp : RawEvent) :
    (∀ (t : CanvasState) (l : List RawEvent),
      (∀ r ∈ l, r.pointerType = PointerType.touch) → runEvents (l.map Event.down) t = t) ∧
    (runEvents
        (Event.down e0 :: (moves.map (fun m => Event.move m.1 m.2) ++ [Event.up eUp]))
        s).strokes
      = s.strokes ++
        [{ points := getPointFromEvent s.geom e0 ::
             (moves.map (fun m => (m.2.getD [m.1]).map (getPointFromEvent s.geom))).flatten,
           tool := s.currentTool, color := s.currentColor,
           lineWidth := getLineWidth s.currentTool (getPointFromEvent s.geom e0).pressure }] ∧
    (getPointFromEvent s.geom e0 ::
       (moves.map (fun m => (m.2.getD [m.1]).map (getPointFromEvent s.geom))).flatten).length
      = 1 + (moves.map (fun m => (m.2.getD [m.1]).length)).sum := by
  refine ⟨?_, ?_, ?_⟩
  · intro t l
    induction l generalizing t with
    | nil => intro _; rfl
    | cons r rest ih =>
      intro hl
      rw [List.map_cons, runEvents_cons,
          show step (Event.down r) t = handlePointerDown r t from rfl,
          handlePointerDown_touch r t (hl r (List.mem_cons_self r rest))]
      exact ih t (fun x hx => hl x (List.mem_cons_of_mem r hx))
  · have hType : e0.pointerType ≠ PointerType.touch := by rw [h0]; decide
    obtain ⟨d1, d2, d3, d4, d5, d6⟩ := handlePointerDown_accepted e0 s hTool hType
    rw [runEvents_cons, show step (Event.down e0) s = handlePointerDown e0 s from rfl,
        runEvents_append]
    obtain ⟨r1, r2, r3, r4, r5, r6⟩ :=
      runEvents_moves_drawing moves (handlePointerDown e0 s) _ d1 d2
    rw [d4] at r2
    rw [show runEvents [Event.up eUp]
          (runEvents (moves.map (fun m => Event.move m.1 m.2)) (handlePointerDown e0 s))
        = handlePointerUp
          (runEvents (moves.map (fun m => Event.move m.1 m.2)) (handlePointerDown e0 s))
        from rfl]
    rw [handlePointerUp_commit _ _ r1 r2 (by simp)]
    rw [r3, d3]
    simp
  · simp [List.length_flatten, List.map_map, Function.comp_def, List.length_map]
    omega

/-- Witness for palm_rejection_pen_commit: one pen down, one plain move, one
up on a fresh canvas. -/
theorem palm_rejection_pen_commit_witness :
    ((initState 100 100 1 0 0).currentTool ≠ Tool.hand) ∧
    samplePenEvent.pointerType = PointerType.pen ∧
    ((∀ (t : CanvasState) (l : List RawEvent),
        (∀ r ∈ l, r.pointerType = PointerType.touch) → runEvents (l.map Event.down) t = t) ∧
     (runEvents
         (Event.down samplePenEvent ::
           (([((sampleMoveEvent, none) : RawEvent × Option (List RawEvent))].map
               (fun m => Event.move m.1 m.2)) ++
            [Event.up samplePenEvent]))
         (initState 100 100 1 0 0)).strokes
       = (initState 100 100 1 0 0).strokes ++
         [{ points := getPointFromEvent (initState 100 100 1 0 0).geom samplePenEvent ::
              (([((sampleMoveEvent, none) : RawEvent × Option (List RawEvent))].map
                  (fun m => (m.2.getD [m.1]).map
                    (getPointFromEvent (initState 100 100 1 0 0).geom))).flatten),
            tool := (initState 100 100 1 0 0).currentTool,
            color := (initState 100 100 1 0 0).currentColor,
            lineWidth := getLineWidth (initState 100 100 1 0 0).currentTool
              (getPointFromEvent (initState 100 100 1 0 0).geom samplePenEvent).pressure }] ∧
     (getPointFromEvent (initState 100 100 1 0 0).geom samplePenEvent ::
        (([((sampleMoveEvent, none) : RawEvent × Option (List RawEvent))].map
            (fun m => (m.2.getD [m.1]).map
              (getPointFromEvent (initState 100 100 1 0 0).geom))).flatten)).length
       = 1 + ([((sampleMoveEvent, none) : RawEvent × Option (List RawEvent))].map
           (fun m => (m.2.getD [m.1]).length)).sum) :=
  ⟨by decide, rfl,
   palm_rejection_pen_commit (initState 100 100 1 0 0) (by decide) samplePenEvent rfl
     [((sampleMoveEvent, none) : RawEvent × Option (List RawEvent))] samplePenEvent⟩

theorem drawSegmentStep_emits (s : CanvasState) (st : Stroke)
    (hcs : s.currentStroke = some st) (h2 : 2 ≤ st.points.length)
    (hTool : s.currentTool = Tool.pen) :
    ∃ cmd : DrawCmd, (drawSegmentStep s).renderLog = s.renderLog ++ [cmd] ∧
      cmdColor cmd = s.currentColor := by
  have hlt : ¬ st.points.length < 2 := by omega
  by_cases h3 : 3 ≤ st.points.length
  · refine ⟨DrawCmd.quad (st.points.getD (st.points.length - 3) default).x
        (st.points.getD (st.points.length - 3) default).y
        (st.points.getD (st.points.length - 2) default).x
        (st.points.getD (st.points.length - 2) default).y
        (((st.points.getD (st.points.length - 2) default).x +
           (st.points.getLastD default).x) / 2)
        (((st.points.getD (st.points.length - 2) default).y +
           (st.points.getLastD default).y) / 2)
        (getLineWidth Tool.pen (st.points.getLastD default).pressure)
        s.currentColor 1 false, ?_, rfl⟩
    simp [drawSegmentStep, hcs, hlt, h3, hTool, applySetup]
  · refine ⟨DrawCmd.line (st.points.getD (st.points.length - 2) default).x
        (st.points.getD (st.points.length - 2) default).y
        (st.points.getLastD default).x (st.points.getLastD default).y
        (getLineWidth Tool.pen (st.points.getLastD default).pressure)
        s.currentColor 1 false, ?_, rfl⟩
    simp [drawSegmentStep, hcs, hlt, h3, hTool, applySetup]

theorem handlePointerMove_pen_emits (main : RawEvent) (s : CanvasState) (st : Stroke)
    (hd : s.isDrawing = true) (hcs : s.currentStroke = some st)
    (hne : st.points ≠ []) (hTool : s.currentTool = Tool.pen) :
    ∃ cmd : DrawCmd, (handlePointerMove main none s).renderLog = s.renderLog ++ [cmd] ∧
      cmdColor cmd = s.currentColor := by
  have hstp : 2 ≤ (st.points ++ [getPointFromEvent s.geom main]).length := by
    have hpos : 0 < st.points.length := List.length_pos.mpr hne
    simp
    omega
  rcases longPressMoveCheck_cases main s with hc | hc
  · unfold handlePointerMove
    rw [hc]
    simp [hd, hcs, hTool]
    obtain ⟨cmd, hlog, hcol⟩ := drawSegmentStep_emits
      { s with currentStroke := some { st with points := st.points ++ [getPointFromEvent s.geom main] } }
      { st with points := st.points ++ [getPointFromEvent s.geom main] }
      rfl (by simpa using hstp) hTool
    exact ⟨cmd, by simpa [hd, hTool] using hlog, by simpa using hcol⟩
  · unfold handlePointerMove
    rw [hc]
    simp [cancelLongPress, hd, hcs, hTool]
    obtain ⟨cmd, hlog, hcol⟩ := drawSegmentStep_emits
      { cancelLongPress s with currentStroke := some { st with points := st.points ++ [getPointFromEvent (cancelLongPress s).geom main] } }
      { st with points := st.points ++ [getPointFromEvent (cancelLongPress s).geom main] }
      rfl (by simpa [cancelLongPress] using hstp) hTool
    exact ⟨cmd, by simpa [cancelLongPress, hd, hTool] using hlog,
      by simpa [cancelLongPress] using hcol⟩

/-- C5, counterexample to the rendering part: with the pen tool, after a
pointer down with color black, a setColor to red, then a move, the recorded
color of the in progress stroke is still black, but the newly rendered segment
is stroked with red — the subsequently captured rendering of the in progress
stroke is affected by the new color. -/
theorem setColor_midstroke_render_cex :
    ((runEvents [Event.down samplePenEvent, Event.setColor "#ff0000",
        Event.move sampleMoveEvent none] (initState 1 1 1 0 0)).currentStroke.map
          Stroke.color) = some "#000000" ∧
    (((runEvents [Event.down samplePenEvent, Event.setColor "#ff0000",
        Event.move sampleMoveEvent none] (initState 1 1 1 0 0)).renderLog.getLast?).map
          cmdColor) = some "#ff0000" ∧
    "#ff0000" ≠ "#000000" := by
  refine ⟨?_, ?_, by decide⟩
  · have hm := handlePointerMove_drawing sampleMoveEvent none
      (setColor "#ff0000" (handlePointerDown samplePenEvent (initState 1 1 1 0 0)))
      sampleDownStroke rfl rfl
    rw [show runEvents [Event.down samplePenEvent, Event.setColor "#ff0000",
          Event.move sampleMoveEvent none] (initState 1 1 1 0 0)
        = handlePointerMove sampleMoveEvent none
          (setColor "#ff0000" (handlePointerDown samplePenEvent (initState 1 1 1 0 0)))
        from rfl]
    rw [hm.2.1]
    rfl
  · obtain ⟨cmd, hlog, hcol⟩ := handlePointerMove_pen_emits sampleMoveEvent
      (setColor "#ff0000" (handlePointerDown samplePenEvent (initState 1 1 1 0 0)))
      sampleDownStroke rfl rfl (by simp [sampleDownStroke]) rfl
    rw [show runEvents [Event.down samplePenEvent, Event.setColor "#ff0000",
          Event.move sampleMoveEvent none] (initState 1 1 1 0 0)
        = handlePointerMove sampleMoveEvent none
          (setColor "#ff0000" (handlePointerDown samplePenEvent (initState 1 1 1 0 0)))
        from rfl]
    rw [hlog]
    simp [hcol]
    rfl

/-- C5, amended: setColor changes only the current color: the in progress
stroke record (its color and points), the committed strokes, and the already
rendered output are all unchanged; but a segment of the in progress pen stroke
captured after the call is rendered with the new color, not the color recorded
in the stroke. -/
theorem setColor_effects (s : CanvasState) (c : String) (st : Stroke) (main : RawEvent)
    (hd : s.isDrawing = true) (hcs : s.currentStroke = some st)
    (hne : st.points ≠ []) (hTool : s.currentTool = Tool.pen) :
    (setColor c s).currentStroke = s.currentStroke ∧
    (setColor c s).strokes = s.strokes ∧
    (setColor c s).renderLog = s.renderLog ∧
    (setColor c s).currentColor = c ∧
    ∃ cmd : DrawCmd,
      (handlePointerMove main none (setColor c s)).renderLog = s.renderLog ++ [cmd] ∧
      cmdColor cmd = c := by
  refine ⟨rfl, rfl, rfl, rfl, ?_⟩
  exact handlePointerMove_pen_emits main (setColor c s) st hd hcs hne hTool

/-- Witness for setColor_effects right after a pen down on a fresh canvas. -/
theorem setColor_effects_witness :
    (handlePointerDown samplePenEvent (initState 1 1 1 0 0)).isDrawing = true ∧
    (handlePointerDown samplePenEvent (initState 1 1 1 0 0)).currentStroke =
      some sampleDownStroke ∧
    sampleDownStroke.points ≠ [] ∧
    (handlePointerDown samplePenEvent (initState 1 1 1 0 0)).currentTool = Tool.pen ∧
    ((setColor "#ff0000" (handlePointerDown samplePenEvent (initState 1 1 1 0 0))).currentStroke
        = (handlePointerDown samplePenEvent (initState 1 1 1 0 0)).currentStroke ∧
     (setColor "#ff0000" (handlePointerDown samplePenEvent (initState 1 1 1 0 0))).strokes
        = (handlePointerDown samplePenEvent (initState 1 1 1 0 0)).strokes ∧
     (setColor "#ff0000" (handlePointerDown samplePenEvent (initState 1 1 1 0 0))).renderLog
        = (handlePointerDown samplePenEvent (initState 1 1 1 0 0)).renderLog ∧
     (setColor "#ff0000" (handlePointerDown samplePenEvent (initState 1 1 1 0 0))).currentColor
        = "#ff0000" ∧
     ∃ cmd : DrawCmd,
       (handlePointerMove sampleMoveEvent none
           (setColor "#ff0000" (handlePointerDown samplePenEvent (initState 1 1 1 0 0)))).renderLog
         = (handlePointerDown samplePenEvent (initState 1 1 1 0 0)).renderLog ++ [cmd] ∧
       cmdColor cmd = "#ff0000") :=
  ⟨rfl, rfl, by simp [sampleDownStroke], rfl,
   setColor_effects (handlePointerDown samplePenEvent (initState 1 1 1 0 0)) "#ff0000"
     sampleDownStroke sampleMoveEvent rfl rfl (by simp [sampleDownStroke]) rfl⟩

end Marginalia
